import Mathlib

set_option maxRecDepth 100000

/-
Verification of the experience-graph store and sequence selector of the
Poker-Monster knowledge-graph player.

The development shallowly embeds the program:
  * thinker source: signature_hash (SHA-256 of the Python str() rendering of
    a tuple of identifiers, truncated to 16 hex chars), the response parser
    of Thinker._parse_choice, and the selection logic of
    Thinker.choose_sequence;
  * graph source: the KnowledgeGraph class over an explicit in-memory model
    of its five SQLite tables, with SQL NULL modelled by Option and REAL
    modelled by the rationals.
Machine randomness (uuid4, random.choice) is modelled by explicit
parameters; the text-generation call is modelled by an Except value
(error = the call raised).  All definitions are executable.
-/

/-! ## SHA-256 over byte lists (hashlib.sha256, as used by signature_hash) -/

/-- Truncation of a natural number to 32 bits. -/
def w32 (n : Nat) : Nat := n % 4294967296

/-- Right rotation of a 32-bit word. -/
def rotr32 (x n : Nat) : Nat := w32 ((x >>> n) ||| (x <<< (32 - n)))

/-- The SHA-256 Ch function; bitwise complement of a 32-bit word x is
4294967295 - x. -/
def ch32 (x y z : Nat) : Nat := Nat.xor (Nat.land x y) (Nat.land (4294967295 - w32 x) z)

/-- The SHA-256 Maj function. -/
def maj32 (x y z : Nat) : Nat :=
  Nat.xor (Nat.xor (Nat.land x y) (Nat.land x z)) (Nat.land y z)

/-- The SHA-256 Sigma0 word function. -/
def bSig0 (x : Nat) : Nat := Nat.xor (Nat.xor (rotr32 x 2) (rotr32 x 13)) (rotr32 x 22)

/-- The SHA-256 Sigma1 word function. -/
def bSig1 (x : Nat) : Nat := Nat.xor (Nat.xor (rotr32 x 6) (rotr32 x 11)) (rotr32 x 25)

/-- The SHA-256 sigma0 word function. -/
def sSig0 (x : Nat) : Nat := Nat.xor (Nat.xor (rotr32 x 7) (rotr32 x 18)) (x >>> 3)

/-- The SHA-256 sigma1 word function. -/
def sSig1 (x : Nat) : Nat := Nat.xor (Nat.xor (rotr32 x 17) (rotr32 x 19)) (x >>> 10)

/-- The 64 SHA-256 round constants. -/
def shaK : List Nat :=
  [1116352408, 1899447441, 3049323471, 3921009573, 961987163,
   1508970993, 2453635748, 2870763221, 3624381080, 310598401,
   607225278, 1426881987, 1925078388, 2162078206, 2614888103,
   3248222580, 3835390401, 4022224774, 264347078, 604807628,
   770255983, 1249150122, 1555081692, 1996064986, 2554220882,
   2821834349, 2952996808, 3210313671, 3336571891, 3584528711,
   113926993, 338241895, 666307205, 773529912, 1294757372,
   1396182291, 1695183700, 1986661051, 2177026350, 2456956037,
   2730485921, 2820302411, 3259730800, 3345764771, 3516065817,
   3600352804, 4094571909, 275423344, 430227734, 506948616,
   659060556, 883997877, 958139571, 1322822218, 1537002063,
   1747873779, 1955562222, 2024104815, 2227730452, 2361852424,
   2428436474, 2756734187, 3204031479, 3329325298]

/-- The SHA-256 initial hash value. -/
def shaH0 : List Nat :=
  [1779033703, 3144134277, 1013904242, 2773480762,
   1359893119, 2600822924, 528734635, 1541459225]

/-- Big-endian byte rendering of a natural number on k bytes. -/
def bytesBE (k n : Nat) : List Nat :=
  (List.range k).map (fun i => n / 2 ^ (8 * (k - 1 - i)) % 256)

/-- SHA-256 message padding: append 0x80, zero bytes up to 56 mod 64, then
the bit length on 8 big-endian bytes. -/
def shaPad (m : List Nat) : List Nat :=
  let r := (m.length + 1) % 64
  m ++ [128] ++ List.replicate ((120 - r) % 64) 0 ++ bytesBE 8 (m.length * 8)

/-- Fuel-driven split of a byte list into 64-byte chunks. -/
def chunksAux : Nat → List Nat → List (List Nat)
  | 0, _ => []
  | _, [] => []
  | fuel + 1, l => l.take 64 :: chunksAux fuel (l.drop 64)

/-- Split a byte list into 64-byte chunks. -/
def chunks64 (l : List Nat) : List (List Nat) := chunksAux l.length l

/-- The 16 big-endian 32-bit words of a 64-byte block. -/
def blockWords (b : List Nat) : List Nat :=
  (List.range 16).map (fun i =>
    b.getD (4 * i) 0 * 16777216 + b.getD (4 * i + 1) 0 * 65536 +
    b.getD (4 * i + 2) 0 * 256 + b.getD (4 * i + 3) 0)

/-- Extend the 16 block words to the 64-entry SHA-256 message schedule. -/
def extendWords (w : List Nat) : List Nat :=
  (List.range 48).foldl (fun w _ =>
    w ++ [w32 (sSig1 (w.getD (w.length - 2) 0) + w.getD (w.length - 7) 0 +
               sSig0 (w.getD (w.length - 15) 0) + w.getD (w.length - 16) 0)]) w

/-- One SHA-256 compression round on the 8-word working state. -/
def shaRound (st : List Nat) (kw : Nat × Nat) : List Nat :=
  match st with
  | [a, b, c, d, e, f, g, h] =>
    let t1 := w32 (h + bSig1 e + ch32 e f g + kw.1 + kw.2)
    let t2 := w32 (bSig0 a + maj32 a b c)
    [w32 (t1 + t2), a, b, c, w32 (d + t1), e, f, g]
  | _ => st

/-- SHA-256 compression of one 64-byte block into the running hash. -/
def shaCompress (hs : List Nat) (block : List Nat) : List Nat :=
  let w := extendWords (blockWords block)
  let st := (shaK.zip w).foldl shaRound hs
  List.zipWith (fun x y => w32 (x + y)) hs st

/-- The eight 32-bit result words of SHA-256 on a byte list. -/
def sha256Words (m : List Nat) : List Nat :=
  (chunks64 (shaPad m)).foldl shaCompress shaH0

/-- Lower-case hex digit of a nibble: digits from code 48, letters from
code 97. -/
def hexChar (n : Nat) : Char :=
  Char.ofNat (if n < 10 then 48 + n else 87 + n)

/-- Eight-character hex rendering of a 32-bit word. -/
def hex8 (n : Nat) : List Char :=
  [hexChar (n / 268435456 % 16), hexChar (n / 16777216 % 16),
   hexChar (n / 1048576 % 16), hexChar (n / 65536 % 16),
   hexChar (n / 4096 % 16), hexChar (n / 256 % 16),
   hexChar (n / 16 % 16), hexChar (n % 16)]

/-- The 64-character hexdigest of SHA-256 on a byte list. -/
def sha256hexChars (m : List Nat) : List Char :=
  ((sha256Words m).map hex8).flatten

/-- UTF-8 encoding of a string, as Python str.encode() produces. -/
def strBytes (s : String) : List Nat :=
  (s.data.map (fun c =>
    let n := c.toNat
    if n < 128 then [n]
    else if n < 2048 then [192 + n / 64, 128 + n % 64]
    else if n < 65536 then [224 + n / 4096, 128 + n / 64 % 64, 128 + n % 64]
    else [240 + n / 262144, 128 + n / 4096 % 64, 128 + n / 64 % 64, 128 + n % 64])).flatten

/-! ## Python rendering of a tuple of strings (str(signature)) -/

/-- Python repr of one string: delimited by single quotes, or by double
quotes when the string contains a single quote but no double quote;
backslash, the delimiter, and the common control characters are escaped.
Identifiers stored by this program are printable ASCII, for which this
rendering coincides with CPython repr. -/
def pyReprStr (s : String) : String :=
  let sq : Char := '\x27'
  let dq : Char := '"'
  let q : Char := if s.data.contains sq && !(s.data.contains dq) then dq else sq
  let body : List Char := (s.data.map (fun c =>
    if c = '\\' then ['\\', '\\']
    else if c = q then ['\\', q]
    else if c = '\n' then ['\\', 'n']
    else if c = '\r' then ['\\', 'r']
    else if c = '\t' then ['\\', 't']
    else [c])).flatten
  String.mk (q :: body ++ [q])

/-- Python str() of a tuple of strings: comma-space separated reprs in
parentheses, with a trailing comma for a one-element tuple. -/
def pyReprTuple (l : List String) : String :=
  match l with
  | [] => "()"
  | [x] => "(" ++ pyReprStr x ++ ",)"
  | _ => "(" ++ String.intercalate ", " (l.map pyReprStr) ++ ")"

/-- Embeds signature_hash of the thinker source: the SHA-256 hexdigest of
the str() rendering of the signature tuple, truncated to 16 hex chars. -/
def signature_hash (signature : List String) : String :=
  String.mk ((sha256hexChars (strBytes (pyReprTuple signature))).take 16)


/-! ## Data model of the KnowledgeGraph SQLite schema (graph source)

SQL NULL on text columns is modelled by Option String where the program can
actually store NULL (episode and sequence references of rows), REAL by the
rationals, and the uuid4 id supply by a deterministic counter carried in the
state.  Table rows are kept in insertion (rowid) order. -/

/-- Embeds the StepInfo dataclass; the Python ids default to None, modelled
here as the empty string (the program always fills them before use). -/
structure StepInfo where
  src_id : String := ""
  action_id : String := ""
  dst_id : String := ""
  src_text : String := ""
  action_text : String := ""
  dst_text : String := ""
deriving DecidableEq

/-- Row of the episodes table (timestamp column omitted: no code path reads
it). -/
structure EpisodeRow where
  episode_id : String
  outcome : ℚ
deriving DecidableEq

/-- Row of the sequences table. -/
structure SequenceRow where
  sequence_id : String
  episode_id : Option String
  signature : Option String
deriving DecidableEq

/-- Row of the steps table (the autoincrement step_id is the list
position). -/
structure StepRow where
  episode_id : Option String
  sequence_id : Option String
  step_num : Nat
  src_id : String
  action_id : String
  dst_id : String
  src_text : String
  action_text : String
  dst_text : String
deriving DecidableEq

/-- Row of the nodes table. -/
structure NodeRow where
  id : String
  total_reward : ℚ
  count : Nat
  avg_reward : ℚ
deriving DecidableEq

/-- Row of the edges table. -/
structure EdgeRow where
  src_id : String
  action_id : String
  dst_id : String
  total_reward : ℚ
  count : Nat
  avg_reward : ℚ
deriving DecidableEq

/-- The five tables of the store (the skills table is never touched by the
code and is omitted). -/
structure GraphDB where
  episodes : List EpisodeRow := []
  sequences : List SequenceRow := []
  steps : List StepRow := []
  nodes : List NodeRow := []
  edges : List EdgeRow := []
deriving DecidableEq

/-- In-memory state of a KnowledgeGraph instance: the connection plus the
four cursor fields of the Python object, and the uuid supply counter. -/
structure KnowledgeGraph where
  db : GraphDB := {}
  current_episode_id : Option String := none
  current_sequence_id : Option String := none
  current_sequence_start_phase : Option String := none
  step_counter : Nat := 0
  next_uuid : Nat := 0
deriving DecidableEq

/-- SQL equality of two nullable text values: NULL compares equal to
nothing. -/
def sqlEqOpt (a b : Option String) : Bool :=
  match a, b with
  | some x, some y => x = y
  | _, _ => false

/-- Draw a fresh id from the uuid supply. -/
def freshId (g : KnowledgeGraph) : String × KnowledgeGraph :=
  ("uuid-" ++ toString g.next_uuid, { g with next_uuid := g.next_uuid + 1 })

/-- Embeds KnowledgeGraph.start_new_episode: allocate an episode id, reset
the step counter, insert an episode row with the default zero outcome. -/
def start_new_episode (g : KnowledgeGraph) : KnowledgeGraph :=
  let (eid, g) := freshId g
  { g with
    current_episode_id := some eid
    step_counter := 0
    db := { g.db with episodes := g.db.episodes ++ [⟨eid, 0⟩] } }

/-- Embeds KnowledgeGraph.start_new_sequence: allocate a sequence id,
remember the start phase, insert a sequence row with a NULL signature. -/
def start_new_sequence (g : KnowledgeGraph) (start_phase : String) : KnowledgeGraph :=
  let (sid, g) := freshId g
  { g with
    current_sequence_id := some sid
    current_sequence_start_phase := some start_phase
    db := { g.db with sequences := g.db.sequences ++ [⟨sid, g.current_episode_id, none⟩] } }

/-- Embeds KnowledgeGraph.create_node: INSERT OR IGNORE into nodes. -/
def create_node (db : GraphDB) (node_id : String) : GraphDB :=
  if db.nodes.any (fun n => n.id = node_id) then db
  else { db with nodes := db.nodes ++ [⟨node_id, 0, 0, 0⟩] }

/-- Embeds KnowledgeGraph.create_edge: INSERT OR IGNORE into edges. -/
def create_edge (db : GraphDB) (src_id action_id dst_id : String) : GraphDB :=
  if db.edges.any (fun e => e.src_id = src_id && e.action_id = action_id && e.dst_id = dst_id)
  then db
  else { db with edges := db.edges ++ [⟨src_id, action_id, dst_id, 0, 0, 0⟩] }

/-- Comparison of step rows by step_num. -/
def stepNumLE (a b : StepRow) : Prop := a.step_num ≤ b.step_num

instance : DecidableRel stepNumLE := fun a b => Nat.decLe a.step_num b.step_num

instance : IsTotal StepRow stepNumLE := ⟨fun a b => Nat.le_total a.step_num b.step_num⟩

instance : IsTrans StepRow stepNumLE := ⟨fun _ _ _ => Nat.le_trans⟩

/-- Steps sorted by step_num ascending (ORDER BY step_num ASC). -/
def sortSteps (l : List StepRow) : List StepRow := l.insertionSort stepNumLE

/-- Embeds KnowledgeGraph.finalize_sequence: read the steps of the current
sequence ordered by step_num, hash the tuple of their action ids, write the
signature on the sequence row, clear the current sequence id. -/
def finalize_sequence (g : KnowledgeGraph) : KnowledgeGraph :=
  let steps := sortSteps (g.db.steps.filter (fun s => sqlEqOpt s.sequence_id g.current_sequence_id))
  let sig := steps.map (fun s => s.action_id)
  let sig_hash := signature_hash sig
  let seqs := g.db.sequences.map (fun s =>
    if sqlEqOpt (some s.sequence_id) g.current_sequence_id
    then { s with signature := some sig_hash } else s)
  { g with db := { g.db with sequences := seqs }, current_sequence_id := none }

/-- Embeds KnowledgeGraph.record_step.  phase_awaiting_input stands for the
external engine constant PHASE_AWAITING_INPUT (its value is configuration
of the excluded engine module, so it is passed as a parameter). -/
def record_step (g : KnowledgeGraph) (step : StepInfo) (boundaries : List String)
    (phase_awaiting_input : String) : KnowledgeGraph :=
  let db := create_node g.db step.src_id
  let db := create_edge db step.src_id step.action_id step.dst_id
  let db := create_node db step.dst_id
  let g := { g with db := db }
  let g := if g.current_sequence_id = none then start_new_sequence g step.src_id else g
  let row : StepRow :=
    ⟨g.current_episode_id, g.current_sequence_id, g.step_counter,
     step.src_id, step.action_id, step.dst_id, step.src_text, step.action_text, step.dst_text⟩
  let g := { g with
    db := { g.db with steps := g.db.steps ++ [row] }
    step_counter := g.step_counter + 1 }
  if g.current_sequence_start_phase = some phase_awaiting_input then
    if step.dst_id ∈ boundaries then finalize_sequence g else g
  else
    if (some step.dst_id) ≠ g.current_sequence_start_phase then finalize_sequence g else g

/-! ## finalize_episode and its Counter-based aggregation -/

/-- Increment of one key in an insertion-ordered multiset, as Python
Counter item assignment behaves: bump an existing entry in place, or append
the key with count one. -/
def pyBump (k : α) [DecidableEq α] : List (α × Nat) → List (α × Nat)
  | [] => [(k, 1)]
  | (a, n) :: t => if a = k then (a, n + 1) :: t else (a, n) :: pyBump k t

/-- Python collections.Counter of a list. -/
def pyCounter [DecidableEq α] (l : List α) : List (α × Nat) :=
  l.foldl (fun acc a => pyBump a acc) []

/-- One SQL UPDATE per counter entry, applied in counter order; every table
row whose key matches the entry key is rewritten from its pre-update
values. -/
def applyUpdates [DecidableEq α] (key : β → α) (upd : β → Nat → β)
    (entries : List (α × Nat)) (table : List β) : List β :=
  entries.foldl (fun tb kv => tb.map (fun row => if key row = kv.1 then upd row kv.2 else row))
    table

/-- The steps of the current episode, in rowid order (the SELECT in
finalize_episode has no ORDER BY; sqlite returns rowid order here). -/
def epSteps (g : KnowledgeGraph) : List StepRow :=
  g.db.steps.filter (fun s => sqlEqOpt s.episode_id g.current_episode_id)

/-- The node UPDATE of finalize_episode: all right-hand sides read the
pre-update row, so the new average is (total + added) / (count + visits). -/
def nodeUpd (reward : ℚ) (nr : NodeRow) (visits : Nat) : NodeRow :=
  let total_added_reward : ℚ := visits * reward
  { nr with
    count := nr.count + visits
    total_reward := nr.total_reward + total_added_reward
    avg_reward := (nr.total_reward + total_added_reward) / ((nr.count : ℚ) + (visits : ℚ)) }

/-- The edge UPDATE of finalize_episode. -/
def edgeUpd (reward : ℚ) (er : EdgeRow) (visits : Nat) : EdgeRow :=
  let total_added_reward : ℚ := visits * reward
  { er with
    count := er.count + visits
    total_reward := er.total_reward + total_added_reward
    avg_reward := (er.total_reward + total_added_reward) / ((er.count : ℚ) + (visits : ℚ)) }

/-- Embeds KnowledgeGraph.finalize_episode: write the outcome on the
current episode, and unless the episode has no steps, add visit counts and
visit-weighted reward to every touched node and edge.  The final
destination contributes one extra node visit when truthy (NULL or empty is
falsy in Python).  The steps SELECT of the source runs after the episode
outcome UPDATE but reads only the steps table, so it is taken here from
the incoming state unchanged. -/
def finalize_episode (g : KnowledgeGraph) (reward : ℚ) : KnowledgeGraph :=
  let eps := g.db.episodes.map (fun e =>
    if sqlEqOpt (some e.episode_id) g.current_episode_id then { e with outcome := reward } else e)
  if epSteps g = [] then { g with db := { g.db with episodes := eps } }
  else
    let steps := epSteps g
    let node_counts :=
      let c := pyCounter (steps.map (fun s => s.src_id))
      let final_destination := ((steps.getLast?).map (fun s => s.dst_id)).getD ""
      if final_destination ≠ "" then pyBump final_destination c else c
    let edge_counts := pyCounter (steps.map (fun s => (s.src_id, s.action_id, s.dst_id)))
    let nodes := applyUpdates (fun nr => nr.id) (nodeUpd reward) node_counts g.db.nodes
    let edges := applyUpdates (fun er => (er.src_id, er.action_id, er.dst_id)) (edgeUpd reward)
      edge_counts g.db.edges
    { g with db := { g.db with episodes := eps, nodes := nodes, edges := edges } }

/-! ## get_sequence_stats -/

/-- Round-half-even to integer, as Python round() behaves on exact halves
(REAL is modelled by the rationals, so the binary floating-point
representation error of the source is idealised away). -/
def roundHalfEven (q : ℚ) : ℤ :=
  let f := ⌊q⌋
  if q - f < 1 / 2 then f
  else if 1 / 2 < q - f then f + 1
  else if 2 ∣ f then f else f + 1

/-- Python round(x, 3). -/
def pyRound3 (q : ℚ) : ℚ := (roundHalfEven (q * 1000) : ℚ) / 1000

/-- Result shape of get_sequence_stats. -/
structure SeqStats where
  wins : Nat
  losses : Nat
  avg_reward : ℚ
  total : Nat
deriving DecidableEq

/-- Embeds KnowledgeGraph.get_sequence_stats: join sequences with their
episodes, keep the rows whose signature matches, return None when no row
matches, else counts of positive and negative outcomes, the rounded mean
outcome, and the row count. -/
def get_sequence_stats (db : GraphDB) (signature : String) : Option SeqStats :=
  let outcomes : List ℚ := db.sequences.filterMap (fun s =>
    if s.signature = some signature then
      (db.episodes.find? (fun e => sqlEqOpt (some e.episode_id) s.episode_id)).map
        (fun e => e.outcome)
    else none)
  if outcomes = [] then none
  else
    some
      { wins := (outcomes.filter (fun o => 0 < o)).length
        losses := (outcomes.filter (fun o => o < 0)).length
        avg_reward := pyRound3 (outcomes.sum / (outcomes.length : ℚ))
        total := outcomes.length }

/-! ## get_unique_sequences (modelled from the spec) -/

/-- Deduplication keeping first occurrences, with an accumulator of seen
keys. -/
def dedupFirstAux (seen : List String) : List String → List String
  | [] => []
  | x :: xs =>
    if x ∈ seen then dedupFirstAux seen xs
    else x :: dedupFirstAux (x :: seen) xs

/-- Deduplication of a list of signatures keeping first occurrences. -/
def dedupFirst (l : List String) : List String := dedupFirstAux [] l

/-- Modelled from the spec: get_unique_sequences is invoked on the store by
the main loop but is not defined in the source tree under review; per the
spec it returns, for each distinct non-null signature ever observed, one
representative closed sequence together with that sequence's full ordered
step list (text fields included). -/
def get_unique_sequences (db : GraphDB) : List (String × List StepRow) :=
  let sigs := dedupFirst (db.sequences.filterMap (fun s => s.signature))
  sigs.map (fun sg =>
    (sg,
      match db.sequences.find? (fun s => s.signature = some sg) with
      | some s => sortSteps (db.steps.filter
          (fun st => sqlEqOpt st.sequence_id (some s.sequence_id)))
      | none => []))

/-! ## Thinker response parsing (_parse_choice) and selection
(choose_sequence)

The two regular expressions of the source are embedded as direct scans:
re.search of CHOICE:\s*(\d+) with IGNORECASE as a leftmost match scan, and
re.findall of bare integers bounded by word boundaries as a collection of
maximal digit runs whose neighbours are not word characters.  The character
classes are the ASCII ones; every string the program feeds them is
ASCII. -/

/-- Python \s on ASCII: space, tab, newline, carriage return, vertical tab,
form feed. -/
def pyIsSpace (c : Char) : Bool :=
  c.toNat = 32 || c.toNat = 9 || c.toNat = 10 || c.toNat = 13 || c.toNat = 11 || c.toNat = 12

/-- Python \w on ASCII: letters, digits, underscore. -/
def isWordChar (c : Char) : Bool := c.isAlpha || c.isDigit || c = '_'

/-- Numeric value of a digit run, as int() parses it (leading zeros
allowed). -/
def digitsVal (l : List Char) : Nat :=
  l.foldl (fun a c => a * 10 + (c.toNat - 48)) 0

/-- Python str.strip() on a character list: drop whitespace from both
ends. -/
def stripChars (l : List Char) : List Char :=
  ((l.dropWhile pyIsSpace).reverse.dropWhile pyIsSpace).reverse

/-- Try to match CHOICE:\s*(\d+) (case-insensitive) at the head of the
list; on success return the digit group value. -/
def tryChoiceAt (l : List Char) : Option Nat :=
  match l with
  | c1 :: c2 :: c3 :: c4 :: c5 :: c6 :: c7 :: rest =>
    if c1.toLower = 'c' && c2.toLower = 'h' && c3.toLower = 'o' && c4.toLower = 'i' &&
       c5.toLower = 'c' && c6.toLower = 'e' && c7 = ':' then
      match (rest.dropWhile pyIsSpace).takeWhile Char.isDigit with
      | [] => none
      | run => some (digitsVal run)
    else none
  | _ => none

/-- Leftmost match of the CHOICE pattern: the characters before the match
start and the matched integer, as re.search returns. -/
def findChoice : List Char → Option (List Char × Nat)
  | [] => none
  | c :: rest =>
    match tryChoiceAt (c :: rest) with
    | some v => some ([], v)
    | none =>
      match findChoice rest with
      | some (pre, v) => some (c :: pre, v)
      | none => none

/-- Scan for the maximal digit runs with word boundaries on both sides, as
re.findall of a digit run between word boundaries collects them.  The
state carries the value and pending boundary flag of the run being read. -/
def scanIntsGo : List Char → Option (Nat × Bool) → Option Char → List Nat
  | [], cur, _ =>
    (match cur with
     | some (v, okB) => if okB then [v] else []
     | none => [])
  | c :: rest, cur, prev =>
    if c.isDigit then
      match cur with
      | some (v, okB) => scanIntsGo rest (some (v * 10 + (c.toNat - 48), okB)) (some c)
      | none =>
        let okB := match prev with
          | none => true
          | some p => !(isWordChar p)
        scanIntsGo rest (some (c.toNat - 48, okB)) (some c)
    else
      match cur with
      | some (v, okB) =>
        (if okB && !(isWordChar c) then [v] else []) ++ scanIntsGo rest none (some c)
      | none => scanIntsGo rest none (some c)

/-- All bare integers of a response, in order of occurrence. -/
def scanInts (l : List Char) : List Nat := scanIntsGo l none none

/-- The shared fallback of the parser: last bare in-range integer, else
zero; the reasoning is the full stripped response. -/
def parse_fallback (response : String) (num_choices : Nat) : Nat × String :=
  match (scanInts response.data).reverse.find? (fun v => decide (v < num_choices)) with
  | some v => (v, String.mk (stripChars response.data))
  | none => (0, String.mk (stripChars response.data))

/-- Embeds Thinker._parse_choice: empty response gives index zero; a
leftmost in-range CHOICE match gives its value with the text before the
match as reasoning; otherwise the last in-range bare integer; otherwise
zero. -/
def parse_choice (response : String) (num_choices : Nat) : Nat × String :=
  if response = "" then (0, "")
  else
    match findChoice response.data with
    | some (pre, v) =>
      if v < num_choices then (v, String.mk (stripChars pre))
      else parse_fallback response num_choices
    | none => parse_fallback response num_choices

/-- One step of a candidate sequence as the selector consumes it (the dict
keys action_id and action_text). -/
structure CandStep where
  action_id : String := ""
  action_text : String := ""
deriving DecidableEq

/-- A candidate sequence handed to the selector. -/
structure Candidate where
  steps : List CandStep := []
deriving DecidableEq

/-- Characters after the first occurrence of a separator, when the
separator occurs at all. -/
def afterFirst (sep : List Char) : List Char → Option (List Char)
  | [] => none
  | c :: rest =>
    if sep.isPrefixOf (c :: rest) then some ((c :: rest).drop sep.length)
    else afterFirst sep rest

/-- Embeds describe_sequence on one action text: when the text contains the
bracket-space marker, keep only what follows its first occurrence. -/
def describe_action (action_text : String) : String :=
  match afterFirst ("] ".data) action_text.data with
  | some rest => String.mk rest
  | none => action_text

/-- Embeds describe_sequence: the action texts joined by an arrow. -/
def describe_sequence (steps : List CandStep) : String :=
  String.intercalate " → " (steps.map (fun s => describe_action s.action_text))

/-- The enumerated candidate lines rendered into the prompt: only the first
forty candidates are rendered (the stats annotation added when a graph is
supplied changes only the line text, never which candidates appear, so the
lines are rendered here on the graph-less path the main loop uses). -/
def choice_lines (legal_sequences : List Candidate) : List String :=
  (legal_sequences.take 40).enum.map
    (fun p => "[" ++ toString p.1 ++ "] " ++ describe_sequence p.2.steps)

/-- Python random.choice: an element selected by external randomness; on an
empty list the call raises, modelled by none. -/
def random_choice (l : List α) (rand : Nat) : Option α := l.get? (rand % l.length)

/-- Embeds Thinker.choose_sequence: on a response the parsed index selects
from the full candidate list; any exception inside the try block (the
text-generation call raising, or the indexing raising) falls back to a
uniform random candidate.  The none result models the IndexError that
random.choice itself raises on an empty candidate list. -/
def choose_sequence (legal_sequences : List Candidate) (response : Except Unit String)
    (rand : Nat) : Option Candidate :=
  match response with
  | .error _ => random_choice legal_sequences rand
  | .ok r =>
    let choice := (parse_choice r legal_sequences.length).1
    match legal_sequences.get? choice with
    | some c => some c
    | none => random_choice legal_sequences rand

/-! ## Transaction granularity of record_step

The SQLite connection of the source autocommits nothing: statements open
an implicit transaction and conn.commit() ends it.  record_step issues its
statements through one connection and commits at its end, but the
start_new_sequence helper it calls when no sequence is active itself
commits.  The statement-and-commit trace of one record_step call is
modelled here to settle the atomicity claim. -/

/-- One database operation of a record_step call: a labelled row-writing
statement or a transaction commit. -/
inductive DbOp where
  | write : String → DbOp
  | commit : DbOp
deriving DecidableEq

/-- The statement trace of one record_step call on state g, in source
order: the two idempotent node inserts and the edge insert, then, when no
sequence is active, the sequence insert followed by the commit inside
start_new_sequence, then the step insert, the signature update when the
boundary logic closes the sequence, and the final commit. -/
def record_step_events (g : KnowledgeGraph) (step : StepInfo) (boundaries : List String)
    (phase_awaiting_input : String) : List DbOp :=
  let opensNew := g.current_sequence_id = none
  let start := if opensNew then some step.src_id else g.current_sequence_start_phase
  let closes :=
    if start = some phase_awaiting_input then step.dst_id ∈ boundaries
    else (some step.dst_id) ≠ start
  [DbOp.write "insert or ignore node src", DbOp.write "insert or ignore edge",
   DbOp.write "insert or ignore node dst"] ++
  (if opensNew then [DbOp.write "insert sequence", DbOp.commit] else []) ++
  [DbOp.write "insert step"] ++
  (if closes then [DbOp.write "update sequence signature"] else []) ++
  [DbOp.commit]

/-- Number of row-writing statements in each committed batch of a trace
(batches split at commits, most recent first). -/
def batchWriteCounts (ops : List DbOp) : List Nat :=
  ops.foldl
    (fun acc op =>
      match op with
      | DbOp.commit => 0 :: acc
      | DbOp.write _ =>
        match acc with
        | c :: t => (c + 1) :: t
        | [] => [1])
    [0]

/-- A trace is atomic when at most one commit batch contains writes. -/
def atomicOps (ops : List DbOp) : Bool :=
  (batchWriteCounts ops).countP (fun c => decide (0 < c)) ≤ 1

/-! ## Counter lookup and concrete example states used by the claims -/

/-- Lookup of a key in an insertion-ordered counter (first entry wins;
counter keys are unique anyway). -/
def cntOf [DecidableEq α] : List (α × Nat) → α → Nat
  | [], _ => 0
  | (a, n) :: t, k => if a = k then n else cntOf t k

/-- The boundary set of the segmenter examples. -/
def exBoundaries : List String := ["P2", "P4"]

/-- The segmenter example of the claim: one episode, boundary set P2 and
P4, five consecutive steps whose destinations are P1, P3, P2, P1, P4; the
engine awaiting-input phase is P2 here, so every sequence of the run opens
at the awaiting-input phase. -/
def segExampleRun : KnowledgeGraph :=
  let g := start_new_episode {}
  let g := record_step g { src_id := "P2", action_id := "a1", dst_id := "P1" } exBoundaries "P2"
  let g := record_step g { src_id := "P1", action_id := "a2", dst_id := "P3" } exBoundaries "P2"
  let g := record_step g { src_id := "P3", action_id := "a3", dst_id := "P2" } exBoundaries "P2"
  let g := record_step g { src_id := "P2", action_id := "a4", dst_id := "P1" } exBoundaries "P2"
  record_step g { src_id := "P1", action_id := "a5", dst_id := "P4" } exBoundaries "P2"

/-- A single recorded step whose sequence opens at phase P1, distinct from
the awaiting-input phase P2, and whose destination P3 is outside the
boundary set. -/
def segOffBoundaryRun : KnowledgeGraph :=
  record_step (start_new_episode {}) { src_id := "P1", action_id := "a1", dst_id := "P3" }
    exBoundaries "P2"

/-- The reward-backpropagation example episode: steps (A,a1,B) and
(B,a2,C), recorded with an empty boundary set so no sequence closes. -/
def aggExampleEpisode : KnowledgeGraph :=
  let g := start_new_episode {}
  let g := record_step g { src_id := "A", action_id := "a1", dst_id := "B" } [] "A"
  record_step g { src_id := "B", action_id := "a2", dst_id := "C" } [] "A"

/-- The reward-backpropagation example after finalize_episode with outcome
one. -/
def aggExampleFinal : KnowledgeGraph := finalize_episode aggExampleEpisode 1

/-- The sequence-stats example store: three closed sequences sharing one
signature, in episodes with outcomes one, one and minus one. -/
def statsExampleDB : GraphDB :=
  { episodes := [⟨"e1", 1⟩, ⟨"e2", 1⟩, ⟨"e3", -1⟩]
    sequences := [⟨"s1", some "e1", some "sg"⟩, ⟨"s2", some "e2", some "sg"⟩,
                  ⟨"s3", some "e3", some "sg"⟩] }

/-- The join column of get_sequence_stats: the outcome of the episode of
every sequence carrying the given signature. -/
def seqOutcomes (db : GraphDB) (signature : String) : List ℚ :=
  db.sequences.filterMap (fun s =>
    if s.signature = some signature then
      (db.episodes.find? (fun e => sqlEqOpt (some e.episode_id) s.episode_id)).map
        (fun e => e.outcome)
    else none)

/-- The phase at which the sequence receiving the step being recorded
opened: the step source when record_step has to open a new sequence, else
the remembered opening phase of the active sequence. -/
def seqStartPhase (g : KnowledgeGraph) (step : StepInfo) : Option String :=
  if g.current_sequence_id = none then some step.src_id else g.current_sequence_start_phase

/-- The close condition of record_step: on a sequence opened at the
awaiting-input phase, the destination lies in the boundary set; on a
sequence opened anywhere else, the destination differs from the opening
phase. -/
def closeCond (g : KnowledgeGraph) (step : StepInfo) (boundaries : List String)
    (phase_awaiting_input : String) : Prop :=
  if seqStartPhase g step = some phase_awaiting_input then step.dst_id ∈ boundaries
  else some step.dst_id ≠ seqStartPhase g step

instance (g : KnowledgeGraph) (step : StepInfo) (boundaries : List String) (aw : String) :
    Decidable (closeCond g step boundaries aw) := by
  unfold closeCond
  infer_instance

/-- The first entry of get_unique_sequences on the segmenter example run,
spelled out. -/
def uniqWitnessPair : String × List StepRow :=
  (signature_hash ["a1", "a2", "a3"],
   sortSteps (segExampleRun.db.steps.filter
     (fun st => sqlEqOpt st.sequence_id (some "uuid-1"))))

/-! ## Helper lemmas: digest length -/

theorem shaRound_length : ∀ (st : List Nat) (kw : Nat × Nat), (shaRound st kw).length = st.length
  | [], _ => rfl
  | [_], _ => rfl
  | [_, _], _ => rfl
  | [_, _, _], _ => rfl
  | [_, _, _, _], _ => rfl
  | [_, _, _, _, _], _ => rfl
  | [_, _, _, _, _, _], _ => rfl
  | [_, _, _, _, _, _, _], _ => rfl
  | [_, _, _, _, _, _, _, _], _ => rfl
  | _ :: _ :: _ :: _ :: _ :: _ :: _ :: _ :: _ :: _, _ => rfl

theorem foldl_shaRound_length (l : List (Nat × Nat)) :
    ∀ hs : List Nat, (l.foldl shaRound hs).length = hs.length := by
  induction l with
  | nil => intro hs; rfl
  | cons kw t ih => intro hs; rw [List.foldl_cons, ih, shaRound_length]

theorem shaCompress_length (hs block : List Nat) :
    (shaCompress hs block).length = hs.length := by
  unfold shaCompress
  rw [List.length_zipWith, foldl_shaRound_length, Nat.min_self]

theorem foldl_shaCompress_length (bl : List (List Nat)) :
    ∀ hs : List Nat, (bl.foldl shaCompress hs).length = hs.length := by
  induction bl with
  | nil => intro hs; rfl
  | cons b t ih => intro hs; rw [List.foldl_cons, ih, shaCompress_length]

theorem sha256Words_length (m : List Nat) : (sha256Words m).length = 8 := by
  unfold sha256Words
  rw [foldl_shaCompress_length]
  rfl

theorem map_hex8_flatten_length (ws : List Nat) :
    ((ws.map hex8).flatten).length = 8 * ws.length := by
  induction ws with
  | nil => rfl
  | cons w t ih =>
    have h8 : (hex8 w).length = 8 := rfl
    simp only [List.map_cons, List.flatten_cons, List.length_append, ih, List.length_cons, h8]
    omega

theorem sha256hexChars_length (m : List Nat) : (sha256hexChars m).length = 64 := by
  unfold sha256hexChars
  rw [map_hex8_flatten_length, sha256Words_length]

theorem signature_hash_length (l : List String) : (signature_hash l).length = 16 := by
  show ((sha256hexChars (strBytes (pyReprTuple l))).take 16).length = 16
  rw [List.length_take, sha256hexChars_length]
  omega

/-- C8: the signature operation is a pure function from an ordered tuple of
identifiers to a fixed-length 16-hex-character digest: two calls on the
same ordered input yield the identical digest, the digest is 16 hex
characters long on every input (so no input fails), and the two distinct
orderings of the same identifiers compared here yield different digests;
the concrete digests equal those of CPython hashlib on the same inputs. -/
theorem signature_hash_spec :
    (∀ l : List String, signature_hash l = signature_hash l) ∧
    (∀ l : List String, (signature_hash l).length = 16) ∧
    signature_hash ["a", "b"] = "0eee9b877a38008e" ∧
    signature_hash ["b", "a"] = "d00931e0981f0748" ∧
    signature_hash ["a", "b"] ≠ signature_hash ["b", "a"] := by
  refine ⟨fun l => rfl, signature_hash_length, by decide, by decide, by decide⟩

/-! ## Helper lemmas: Python Counter -/

theorem cntOf_eq_zero_of_not_mem [DecidableEq α] (c : List (α × Nat)) (k : α)
    (h : k ∉ c.map Prod.fst) : cntOf c k = 0 := by
  induction c with
  | nil => rfl
  | cons p t ih =>
    obtain ⟨a, n⟩ := p
    simp only [List.map_cons, List.mem_cons, not_or] at h
    have hne : a ≠ k := fun e => h.1 e.symm
    rw [show cntOf ((a, n) :: t) k = if a = k then n else cntOf t k from rfl, if_neg hne]
    exact ih h.2

theorem cntOf_pyBump [DecidableEq α] (c : List (α × Nat)) (k k' : α) :
    cntOf (pyBump k c) k' = cntOf c k' + (if k = k' then 1 else 0) := by
  induction c with
  | nil =>
    by_cases h : k = k' <;> simp [pyBump, cntOf, h]
  | cons p t ih =>
    obtain ⟨a, n⟩ := p
    by_cases hak : a = k
    · subst hak
      by_cases h : a = k' <;> simp [pyBump, cntOf, h]
    · have hka : ¬ k = a := fun e => hak e.symm
      by_cases h : a = k'
      · subst h
        simp [pyBump, cntOf, hak, hka]
      · simp [pyBump, cntOf, hak, h, ih]

theorem keys_pyBump [DecidableEq α] (c : List (α × Nat)) (k : α) :
    (pyBump k c).map Prod.fst =
      if k ∈ c.map Prod.fst then c.map Prod.fst else c.map Prod.fst ++ [k] := by
  induction c with
  | nil => simp [pyBump]
  | cons p t ih =>
    obtain ⟨a, n⟩ := p
    by_cases hak : a = k
    · subst hak; simp [pyBump]
    · have hka : ¬ k = a := fun e => hak e.symm
      simp only [pyBump, if_neg hak, List.map_cons, List.mem_cons, ih]
      by_cases hm : k ∈ t.map Prod.fst
      · simp [hm, hka]
      · simp [hm, hka]

theorem nodup_keys_pyBump [DecidableEq α] (c : List (α × Nat)) (k : α)
    (h : (c.map Prod.fst).Nodup) : ((pyBump k c).map Prod.fst).Nodup := by
  rw [keys_pyBump]
  by_cases hm : k ∈ c.map Prod.fst
  · simpa [hm]
  · simpa [hm, List.nodup_append] using h

theorem pos_pyBump [DecidableEq α] (c : List (α × Nat)) (k : α)
    (h : ∀ p ∈ c, 0 < p.2) : ∀ p ∈ pyBump k c, 0 < p.2 := by
  induction c with
  | nil =>
    intro p hp
    have hp1 : p = (k, 1) := by simpa [pyBump] using hp
    simp [hp1]
  | cons q t ih =>
    obtain ⟨a, n⟩ := q
    intro p hp
    by_cases hak : a = k
    · simp only [pyBump, if_pos hak] at hp
      rcases List.mem_cons.mp hp with h1 | h1
      · simp [h1]
      · exact h p (List.mem_cons_of_mem _ h1)
    · simp only [pyBump, if_neg hak] at hp
      rcases List.mem_cons.mp hp with h1 | h1
      · rw [h1]
        exact h (a, n) (List.mem_cons_self _ _)
      · exact ih (fun q hq => h q (List.mem_cons_of_mem _ hq)) p h1

theorem cntOf_foldl_pyBump [DecidableEq α] (l : List α) :
    ∀ (acc : List (α × Nat)) (k : α),
      cntOf (l.foldl (fun acc a => pyBump a acc) acc) k = cntOf acc k + l.count k := by
  induction l with
  | nil => intro acc k; simp
  | cons a t ih =>
    intro acc k
    rw [List.foldl_cons, ih, cntOf_pyBump, List.count_cons]
    by_cases h : a = k
    · simp [h]
      omega
    · have hka : ¬ k = a := fun e => h e.symm
      simp [h, hka]

theorem cntOf_pyCounter [DecidableEq α] (l : List α) (k : α) :
    cntOf (pyCounter l) k = l.count k := by
  unfold pyCounter
  rw [cntOf_foldl_pyBump]
  simp [cntOf]

theorem nodup_keys_foldl_pyBump [DecidableEq α] (l : List α) :
    ∀ acc : List (α × Nat), (acc.map Prod.fst).Nodup →
      ((l.foldl (fun acc a => pyBump a acc) acc).map Prod.fst).Nodup := by
  induction l with
  | nil => intro acc h; simpa
  | cons a t ih =>
    intro acc h
    exact ih _ (nodup_keys_pyBump _ _ h)

theorem nodup_keys_pyCounter [DecidableEq α] (l : List α) :
    ((pyCounter l).map Prod.fst).Nodup :=
  nodup_keys_foldl_pyBump l [] (by simp)

theorem pos_foldl_pyBump [DecidableEq α] (l : List α) :
    ∀ acc : List (α × Nat), (∀ p ∈ acc, 0 < p.2) →
      ∀ p ∈ l.foldl (fun acc a => pyBump a acc) acc, 0 < p.2 := by
  induction l with
  | nil => intro acc h; exact h
  | cons a t ih =>
    intro acc h
    exact ih _ (pos_pyBump _ _ h)

theorem pos_pyCounter [DecidableEq α] (l : List α) : ∀ p ∈ pyCounter l, 0 < p.2 :=
  pos_foldl_pyBump l [] (by simp)

/-! ## Helper lemmas: the fold of per-key UPDATEs -/

theorem applyUpdates_nil [DecidableEq α] (key : β → α) (upd : β → Nat → β) (table : List β) :
    applyUpdates key upd [] table = table := rfl

theorem applyUpdates_eq [DecidableEq α] (key : β → α) (upd : β → Nat → β)
    (hkey : ∀ b n, key (upd b n) = key b) :
    ∀ (entries : List (α × Nat)), ((entries.map Prod.fst).Nodup) →
      (∀ p ∈ entries, 0 < p.2) →
      ∀ table : List β,
        applyUpdates key upd entries table =
          table.map (fun row =>
            if cntOf entries (key row) = 0 then row else upd row (cntOf entries (key row))) := by
  intro entries
  induction entries with
  | nil =>
    intro _ _ table
    simp [applyUpdates, cntOf]
  | cons p t ih =>
    obtain ⟨k, v⟩ := p
    intro hnd hpos table
    simp only [List.map_cons, List.nodup_cons] at hnd
    have hv : v ≠ 0 := Nat.pos_iff_ne_zero.mp (hpos (k, v) (List.mem_cons_self _ _))
    have step1 : applyUpdates key upd ((k, v) :: t) table =
        applyUpdates key upd t (table.map (fun row => if key row = k then upd row v else row)) :=
      rfl
    rw [step1, ih hnd.2 (fun q hq => hpos q (List.mem_cons_of_mem _ hq)), List.map_map]
    apply List.map_congr_left
    intro row _
    simp only [Function.comp_apply]
    by_cases h : key row = k
    · have hz : cntOf t k = 0 := cntOf_eq_zero_of_not_mem t k hnd.1
      simp [h, hkey, hz, cntOf, hv]
    · have hne : ¬ k = key row := fun e => h e.symm
      simp [h, cntOf, hne]

/-! ## Claim C2: reward backpropagation of finalize_episode -/

theorem cntOf_pyCounter_map [DecidableEq α] (l : List β) (f : β → α) (k : α) :
    cntOf (pyCounter (l.map f)) k = l.countP (fun b => decide (f b = k)) := by
  rw [cntOf_pyCounter, List.count_eq_countP, List.countP_map]
  rfl

/-- C2 (amended): for every episode with at least one recorded step whose
final destination is a real node id, finalize_episode adds, for each node
row, a visit count equal to the number of episode steps having that node as
source plus one extra visit when the node is the final step destination;
adds one visit per occurrence to each (src, action, dst) edge row; adds
visits times outcome to each affected total_reward in a single combined
update; and leaves every affected avg_reward equal to total_reward / count
after the update, while rows with no visits are untouched.  On the example
episode (A,a1,B),(B,a2,C) with outcome one: node A gets one visit, node B
gets one visit (the claim said two; B is the source of one step and is not
the final destination), node C gets one visit, and each edge gets one
visit, with every affected avg_reward equal to total_reward / count. -/
theorem finalize_episode_aggregates :
    (∀ (g : KnowledgeGraph) (r : ℚ) (last : StepRow),
      (epSteps g).getLast? = some last →
      last.dst_id ≠ "" →
      ((finalize_episode g r).db.nodes =
        g.db.nodes.map (fun nr =>
          let v := (epSteps g).countP (fun s => decide (s.src_id = nr.id)) +
            (if last.dst_id = nr.id then 1 else 0)
          if v = 0 then nr
          else
            { nr with
              count := nr.count + v
              total_reward := nr.total_reward + (v : ℚ) * r
              avg_reward := (nr.total_reward + (v : ℚ) * r) / ((nr.count : ℚ) + (v : ℚ)) }) ∧
       (finalize_episode g r).db.edges =
        g.db.edges.map (fun er =>
          let v := (epSteps g).countP
            (fun s => decide ((s.src_id, s.action_id, s.dst_id) =
              (er.src_id, er.action_id, er.dst_id)))
          if v = 0 then er
          else
            { er with
              count := er.count + v
              total_reward := er.total_reward + (v : ℚ) * r
              avg_reward := (er.total_reward + (v : ℚ) * r) / ((er.count : ℚ) + (v : ℚ)) }) ∧
       (finalize_episode g r).db.episodes =
        g.db.episodes.map (fun e =>
          if sqlEqOpt (some e.episode_id) g.current_episode_id then { e with outcome := r }
          else e))) ∧
    aggExampleFinal.db.nodes =
      [⟨"A", 1, 1, 1⟩, ⟨"B", 1, 1, 1⟩, ⟨"C", 1, 1, 1⟩] ∧
    aggExampleFinal.db.edges =
      [⟨"A", "a1", "B", 1, 1, 1⟩, ⟨"B", "a2", "C", 1, 1, 1⟩] := by
  refine ⟨?_, by with_unfolding_all decide, by with_unfolding_all decide⟩
  intro g r last hlast hdst
  have hne : ¬ (epSteps g = []) := by
    intro h0
    rw [h0] at hlast
    cases hlast
  have hfd : (((epSteps g).getLast?).map (fun s => s.dst_id)).getD "" = last.dst_id := by
    rw [hlast]
    rfl
  unfold finalize_episode
  rw [if_neg hne]
  have hcnt : ∀ id : String,
      cntOf (pyBump last.dst_id (pyCounter ((epSteps g).map (fun s => s.src_id)))) id =
        (epSteps g).countP (fun s => decide (s.src_id = id)) +
          (if last.dst_id = id then 1 else 0) := by
    intro id
    rw [cntOf_pyBump, cntOf_pyCounter_map]
  refine ⟨?_, ?_, rfl⟩
  · show applyUpdates (fun nr => nr.id) (nodeUpd r)
        (if (((epSteps g).getLast?.map (fun s => s.dst_id)).getD "" ≠ "")
         then pyBump (((epSteps g).getLast?.map (fun s => s.dst_id)).getD "")
           (pyCounter ((epSteps g).map (fun s => s.src_id)))
         else pyCounter ((epSteps g).map (fun s => s.src_id))) g.db.nodes = _
    rw [hfd, if_pos hdst]
    rw [applyUpdates_eq (fun nr : NodeRow => nr.id) (nodeUpd r)
      (fun b n => (rfl : (nodeUpd r b n).id = b.id)) _
      (nodup_keys_pyBump _ _ (nodup_keys_pyCounter _))
      (pos_pyBump _ _ (pos_pyCounter _))]
    apply List.map_congr_left
    intro nr _
    rw [hcnt nr.id]
    simp only [nodeUpd]
  · show applyUpdates (fun er => (er.src_id, er.action_id, er.dst_id)) (edgeUpd r)
        (pyCounter ((epSteps g).map (fun s => (s.src_id, s.action_id, s.dst_id)))) g.db.edges = _
    rw [applyUpdates_eq (fun er : EdgeRow => (er.src_id, er.action_id, er.dst_id)) (edgeUpd r)
      (fun b n => (rfl :
        ((edgeUpd r b n).src_id, (edgeUpd r b n).action_id, (edgeUpd r b n).dst_id) =
          (b.src_id, b.action_id, b.dst_id))) _
      (nodup_keys_pyCounter _) (pos_pyCounter _)]
    apply List.map_congr_left
    intro er _
    rw [cntOf_pyCounter_map]
    simp only [edgeUpd]

/-- C2 witness: the general aggregation theorem applied to the example
episode. -/
theorem finalize_episode_aggregates_witness :
    (finalize_episode aggExampleEpisode 1).db.episodes =
      aggExampleEpisode.db.episodes.map (fun e =>
        if sqlEqOpt (some e.episode_id) aggExampleEpisode.current_episode_id
        then { e with outcome := 1 } else e) :=
  (finalize_episode_aggregates.1 aggExampleEpisode 1
    ⟨some "uuid-0", some "uuid-1", 1, "B", "a2", "C", "", "", ""⟩
    (by decide) (by decide)).2.2

/-- C2 counterexample: on the example episode the claim asserts node B ends
with two visits; the code gives it exactly one (B is the source of one step
and the final destination is C, not B). -/
theorem finalize_episode_nodeB_counterexample :
    ((aggExampleFinal.db.nodes.find? (fun nr => decide (nr.id = "B"))).map
      (fun nr => nr.count)) = some 1 ∧
    ¬ ((aggExampleFinal.db.nodes.find? (fun nr => decide (nr.id = "B"))).map
      (fun nr => nr.count)) = some 2 := by
  constructor <;> with_unfolding_all decide

/-! ## Claim C9: finalize_episode on an episode with no steps -/

/-- C9: for every outcome value, finalize_episode on an episode with zero
recorded steps stores the outcome on the episode row and leaves every
node, edge, step and sequence row unchanged. -/
theorem finalize_episode_empty (g : KnowledgeGraph) (r : ℚ) (h : epSteps g = []) :
    (finalize_episode g r).db.nodes = g.db.nodes ∧
    (finalize_episode g r).db.edges = g.db.edges ∧
    (finalize_episode g r).db.steps = g.db.steps ∧
    (finalize_episode g r).db.sequences = g.db.sequences ∧
    (finalize_episode g r).db.episodes =
      g.db.episodes.map (fun e =>
        if sqlEqOpt (some e.episode_id) g.current_episode_id then { e with outcome := r }
        else e) := by
  unfold finalize_episode
  rw [if_pos h]
  exact ⟨rfl, rfl, rfl, rfl, rfl⟩

/-- C9 witness: a freshly started episode has no steps; finalizing it with
outcome minus two only rewrites the episode row. -/
theorem finalize_episode_empty_witness :
    (finalize_episode (start_new_episode {}) (-2)).db.nodes =
      (start_new_episode {}).db.nodes ∧
    (finalize_episode (start_new_episode {}) (-2)).db.edges =
      (start_new_episode {}).db.edges ∧
    (finalize_episode (start_new_episode {}) (-2)).db.steps =
      (start_new_episode {}).db.steps ∧
    (finalize_episode (start_new_episode {}) (-2)).db.sequences =
      (start_new_episode {}).db.sequences ∧
    (finalize_episode (start_new_episode {}) (-2)).db.episodes =
      (start_new_episode {}).db.episodes.map (fun e =>
        if sqlEqOpt (some e.episode_id) (start_new_episode {}).current_episode_id
        then { e with outcome := -2 } else e) :=
  finalize_episode_empty (start_new_episode {}) (-2) (by decide)

/-! ## Claim C1: when the segmenter closes a sequence -/

/-- The sequence just recorded to is closed by record_step exactly when the
close rule of the source fires: when the active sequence opened at the
awaiting-input phase, on a destination in the boundary set; when it opened
anywhere else, on any destination different from the opening phase. -/
theorem record_step_seq_closed_iff (g : KnowledgeGraph) (step : StepInfo)
    (boundaries : List String) (aw : String) :
    (record_step g step boundaries aw).current_sequence_id = none ↔
      ((seqStartPhase g step = some aw ∧ step.dst_id ∈ boundaries) ∨
       (seqStartPhase g step ≠ some aw ∧ some step.dst_id ≠ seqStartPhase g step)) := by
  by_cases hseq : g.current_sequence_id = none
  · by_cases hph : step.src_id = aw
    · by_cases hb : step.dst_id ∈ boundaries
      · simp [record_step, start_new_sequence, finalize_sequence, seqStartPhase, hseq, hph, hb]
      · simp [record_step, start_new_sequence, finalize_sequence, seqStartPhase, hseq, hph, hb]
    · by_cases hd : step.dst_id = step.src_id
      · simp [record_step, start_new_sequence, finalize_sequence, seqStartPhase, hseq, hph, hd]
      · simp [record_step, start_new_sequence, finalize_sequence, seqStartPhase, hseq, hph, hd]
  · by_cases hph : g.current_sequence_start_phase = some aw
    · by_cases hb : step.dst_id ∈ boundaries
      · simp [record_step, start_new_sequence, finalize_sequence, seqStartPhase, hseq, hph, hb]
      · simp [record_step, start_new_sequence, finalize_sequence, seqStartPhase, hseq, hph, hb]
    · by_cases hd : some step.dst_id = g.current_sequence_start_phase
      · simp [record_step, start_new_sequence, finalize_sequence, seqStartPhase, hseq, hph, hd]
      · simp [record_step, start_new_sequence, finalize_sequence, seqStartPhase, hseq, hph, hd]

theorem closeCond_iff (g : KnowledgeGraph) (step : StepInfo)
    (boundaries : List String) (aw : String) :
    closeCond g step boundaries aw ↔
      ((seqStartPhase g step = some aw ∧ step.dst_id ∈ boundaries) ∨
       (seqStartPhase g step ≠ some aw ∧ some step.dst_id ≠ seqStartPhase g step)) := by
  by_cases hph : seqStartPhase g step = some aw
  · simp [closeCond, hph]
  · simp [closeCond, hph]

/-- C1 (amended): the segmenter closes the active sequence on the step just
recorded exactly when either the sequence opened at the engine
awaiting-input phase and the destination is in the boundary set, or the
sequence opened at any other phase and the destination differs from that
opening phase (the claim asserted closure on boundary membership alone);
in the example run with boundary set P2, P4 and destinations P1, P3, P2,
P1, P4, where the first source P2 is the awaiting-input phase, exactly two
sequences close, the first with its signature over the three steps that
landed on P1, P3, P2 and the second over the two steps that landed on P1,
P4, ordered by step_num, and no step row belongs to both sequences. -/
theorem record_step_close_rule :
    (∀ (g : KnowledgeGraph) (step : StepInfo) (boundaries : List String) (aw : String),
      (record_step g step boundaries aw).current_sequence_id = none ↔
        ((seqStartPhase g step = some aw ∧ step.dst_id ∈ boundaries) ∨
         (seqStartPhase g step ≠ some aw ∧ some step.dst_id ≠ seqStartPhase g step))) ∧
    segExampleRun.db.sequences.map (fun s => (s.episode_id, s.signature)) =
      [(some "uuid-0", some (signature_hash ["a1", "a2", "a3"])),
       (some "uuid-0", some (signature_hash ["a4", "a5"]))] ∧
    segExampleRun.db.steps.map (fun s => (s.sequence_id, s.step_num, s.action_id)) =
      [(some "uuid-1", 0, "a1"), (some "uuid-1", 1, "a2"), (some "uuid-1", 2, "a3"),
       (some "uuid-2", 3, "a4"), (some "uuid-2", 4, "a5")] ∧
    segExampleRun.current_sequence_id = none :=
  ⟨record_step_seq_closed_iff, by decide, by decide, by decide⟩

/-- C1 counterexample: a sequence opening at phase P1, which is not the
awaiting-input phase P2, closes on a step whose destination P3 is outside
the boundary set P2, P4; under the claimed rule it would stay open. -/
theorem record_step_closes_outside_boundary :
    segOffBoundaryRun.current_sequence_id = none ∧
    ¬ ("P3" ∈ exBoundaries) ∧
    segOffBoundaryRun.db.sequences.map (fun s => s.signature) =
      [some (signature_hash ["a1"])] :=
  ⟨by decide, by decide, by decide⟩

/-! ## Claim C6: transaction granularity of record_step -/

theorem record_step_events_open (g : KnowledgeGraph) (step : StepInfo)
    (boundaries : List String) (aw : String) (hseq : g.current_sequence_id = none) :
    record_step_events g step boundaries aw =
      [DbOp.write "insert or ignore node src", DbOp.write "insert or ignore edge",
       DbOp.write "insert or ignore node dst", DbOp.write "insert sequence", DbOp.commit,
       DbOp.write "insert step"] ++
      ((if closeCond g step boundaries aw then [DbOp.write "update sequence signature"]
        else []) ++ [DbOp.commit]) := by
  simp [record_step_events, closeCond, seqStartPhase, hseq]

theorem record_step_events_active (g : KnowledgeGraph) (step : StepInfo)
    (boundaries : List String) (aw : String) (hseq : ¬ g.current_sequence_id = none) :
    record_step_events g step boundaries aw =
      [DbOp.write "insert or ignore node src", DbOp.write "insert or ignore edge",
       DbOp.write "insert or ignore node dst", DbOp.write "insert step"] ++
      ((if closeCond g step boundaries aw then [DbOp.write "update sequence signature"]
        else []) ++ [DbOp.commit]) := by
  simp [record_step_events, closeCond, seqStartPhase, hseq]

theorem atomicOps_open_shape (P : Prop) [Decidable P] :
    atomicOps
      ([DbOp.write "insert or ignore node src", DbOp.write "insert or ignore edge",
        DbOp.write "insert or ignore node dst", DbOp.write "insert sequence", DbOp.commit,
        DbOp.write "insert step"] ++
       ((if P then [DbOp.write "update sequence signature"] else []) ++ [DbOp.commit])) =
      false := by
  by_cases h : P
  · rw [if_pos h]
    decide
  · rw [if_neg h]
    decide

theorem atomicOps_active_shape (P : Prop) [Decidable P] :
    atomicOps
      ([DbOp.write "insert or ignore node src", DbOp.write "insert or ignore edge",
        DbOp.write "insert or ignore node dst", DbOp.write "insert step"] ++
       ((if P then [DbOp.write "update sequence signature"] else []) ++ [DbOp.commit])) =
      true := by
  by_cases h : P
  · rw [if_pos h]
    decide
  · rw [if_neg h]
    decide

theorem mem_sig_open_shape (P : Prop) [Decidable P] :
    (DbOp.write "update sequence signature" ∈
      [DbOp.write "insert or ignore node src", DbOp.write "insert or ignore edge",
       DbOp.write "insert or ignore node dst", DbOp.write "insert sequence", DbOp.commit,
       DbOp.write "insert step"] ++
      ((if P then [DbOp.write "update sequence signature"] else []) ++ [DbOp.commit])) ↔ P := by
  by_cases h : P
  · rw [if_pos h]
    exact ⟨fun _ => h, fun _ => by decide⟩
  · rw [if_neg h]
    exact ⟨fun hm => absurd hm (by decide), fun hp => absurd hp h⟩

theorem mem_sig_active_shape (P : Prop) [Decidable P] :
    (DbOp.write "update sequence signature" ∈
      [DbOp.write "insert or ignore node src", DbOp.write "insert or ignore edge",
       DbOp.write "insert or ignore node dst", DbOp.write "insert step"] ++
      ((if P then [DbOp.write "update sequence signature"] else []) ++ [DbOp.commit])) ↔ P := by
  by_cases h : P
  · rw [if_pos h]
    exact ⟨fun _ => h, fun _ => by decide⟩
  · rw [if_neg h]
    exact ⟨fun hm => absurd hm (by decide), fun hp => absurd hp h⟩

/-- C6 (amended): a record_step call that appends to an already active
sequence is one atomic commit batch covering all its effects; a call that
has to open a new sequence is not atomic, because the commit inside
start_new_sequence splits the node and edge inserts and the sequence open
from the step append into two committed batches; the signature update
appears in the trace exactly when the call closes the sequence. -/
theorem record_step_atomicity :
    ∀ (g : KnowledgeGraph) (step : StepInfo) (boundaries : List String) (aw : String),
      (g.current_sequence_id ≠ none →
        atomicOps (record_step_events g step boundaries aw) = true) ∧
      (g.current_sequence_id = none →
        atomicOps (record_step_events g step boundaries aw) = false) ∧
      ((record_step g step boundaries aw).current_sequence_id = none ↔
        DbOp.write "update sequence signature" ∈ record_step_events g step boundaries aw) := by
  intro g step boundaries aw
  refine ⟨?_, ?_, ?_⟩
  · intro hne
    rw [record_step_events_active g step boundaries aw hne]
    exact atomicOps_active_shape _
  · intro hseq
    rw [record_step_events_open g step boundaries aw hseq]
    exact atomicOps_open_shape _
  · rw [record_step_seq_closed_iff]
    by_cases hseq : g.current_sequence_id = none
    · rw [record_step_events_open g step boundaries aw hseq, mem_sig_open_shape]
      exact (closeCond_iff g step boundaries aw).symm
    · rw [record_step_events_active g step boundaries aw hseq, mem_sig_active_shape]
      exact (closeCond_iff g step boundaries aw).symm

/-- C6 counterexample: the very first record_step of a fresh episode must
open a sequence; its trace commits the node and edge inserts and the
sequence row strictly before the step append commits, so the call is two
committed batches, not one. -/
theorem record_step_not_atomic_on_open :
    record_step_events (start_new_episode {})
        { src_id := "P1", action_id := "a1", dst_id := "P3" } exBoundaries "P2" =
      [DbOp.write "insert or ignore node src", DbOp.write "insert or ignore edge",
       DbOp.write "insert or ignore node dst", DbOp.write "insert sequence", DbOp.commit,
       DbOp.write "insert step", DbOp.write "update sequence signature", DbOp.commit] ∧
    atomicOps (record_step_events (start_new_episode {})
        { src_id := "P1", action_id := "a1", dst_id := "P3" } exBoundaries "P2") = false :=
  ⟨by decide, by decide⟩

/-! ## Claim C3: get_sequence_stats -/

theorem get_sequence_stats_def (db : GraphDB) (sig : String) :
    get_sequence_stats db sig =
      if seqOutcomes db sig = [] then none
      else some
        { wins := ((seqOutcomes db sig).filter (fun o => decide (0 < o))).length
          losses := ((seqOutcomes db sig).filter (fun o => decide (o < 0))).length
          avg_reward := pyRound3 ((seqOutcomes db sig).sum / ((seqOutcomes db sig).length : ℚ))
          total := (seqOutcomes db sig).length } := rfl

theorem seqOutcomes_length_aux (db : GraphDB) (sig : String) :
    ∀ l : List SequenceRow,
      (∀ s ∈ l,
        (db.episodes.find? (fun e => sqlEqOpt (some e.episode_id) s.episode_id)).isSome = true) →
      (l.filterMap (fun s =>
          if s.signature = some sig then
            (db.episodes.find? (fun e => sqlEqOpt (some e.episode_id) s.episode_id)).map
              (fun e => e.outcome)
          else none)).length =
        (l.filter (fun s => decide (s.signature = some sig))).length := by
  intro l
  induction l with
  | nil => intro _; rfl
  | cons s t ih =>
    intro h
    have hs := h s (List.mem_cons_self _ _)
    have ht := ih (fun q hq => h q (List.mem_cons_of_mem _ hq))
    by_cases hsig : s.signature = some sig
    · obtain ⟨e, he⟩ := Option.isSome_iff_exists.mp hs
      simp [List.filterMap_cons, List.filter_cons, hsig, he, ht]
    · simp [List.filterMap_cons, List.filter_cons, hsig, ht]

theorem rat_sign_partition (l : List ℚ) :
    l.countP (fun o => decide (0 < o)) + l.countP (fun o => decide (o < 0)) +
      l.countP (fun o => decide (o = 0)) = l.length := by
  induction l with
  | nil => rfl
  | cons o t ih =>
    simp only [List.countP_cons, List.length_cons]
    rcases lt_trichotomy o 0 with h | h | h
    · rw [decide_eq_false (not_lt.mpr (le_of_lt h) : ¬ (0 < o)), decide_eq_true h,
        decide_eq_false (ne_of_lt h : ¬ (o = 0))]
      simp only [if_neg Bool.false_ne_true, if_pos (rfl : true = true), if_true, if_false]
      omega
    · rw [decide_eq_false (by rw [h]; exact lt_irrefl 0 : ¬ (0 < o)),
        decide_eq_false (by rw [h]; exact lt_irrefl 0 : ¬ (o < 0)), decide_eq_true h]
      simp only [if_neg Bool.false_ne_true, if_pos (rfl : true = true), if_true, if_false]
      omega
    · rw [decide_eq_true h, decide_eq_false (not_lt.mpr (le_of_lt h) : ¬ (o < 0)),
        decide_eq_false (ne_of_gt h : ¬ (o = 0))]
      simp only [if_neg Bool.false_ne_true, if_pos (rfl : true = true), if_true, if_false]
      omega

/-- C3: for every signature, sequence stats are absent exactly when no
stored sequence carries that signature (stated under referential
integrity: every sequence row joins an episode row); when present, wins
counts the matching outcomes above zero, losses those below zero, an
outcome of zero counts as neither, total is the number of matching
sequences, and avg_reward is the mean outcome rounded to three decimals;
over outcomes one, one and minus one the result is wins two, losses one,
total three and avg_reward 0.333. -/
theorem get_sequence_stats_spec :
    (∀ (db : GraphDB) (sig : String),
      (∀ s ∈ db.sequences, s.signature ≠ some sig) → get_sequence_stats db sig = none) ∧
    (∀ (db : GraphDB) (sig : String),
      (∀ s ∈ db.sequences,
        (db.episodes.find? (fun e => sqlEqOpt (some e.episode_id) s.episode_id)).isSome = true) →
      ((get_sequence_stats db sig = none ↔
          db.sequences.filter (fun s => decide (s.signature = some sig)) = []) ∧
       (∀ st : SeqStats, get_sequence_stats db sig = some st →
          st.total = (db.sequences.filter (fun s => decide (s.signature = some sig))).length ∧
          st.wins = (seqOutcomes db sig).countP (fun o => decide (0 < o)) ∧
          st.losses = (seqOutcomes db sig).countP (fun o => decide (o < 0)) ∧
          st.wins + st.losses + (seqOutcomes db sig).countP (fun o => decide (o = 0)) =
            st.total ∧
          st.avg_reward =
            pyRound3 ((seqOutcomes db sig).sum / ((seqOutcomes db sig).length : ℚ))))) ∧
    get_sequence_stats statsExampleDB "sg" = some ⟨2, 1, 333 / 1000, 3⟩ ∧
    get_sequence_stats statsExampleDB "zz" = none := by
  refine ⟨?_, ?_, by with_unfolding_all decide, by with_unfolding_all decide⟩
  · intro db sig h
    have hnil : seqOutcomes db sig = [] := by
      rw [seqOutcomes, List.filterMap_eq_nil_iff]
      intro s hs
      rw [if_neg (h s hs)]
    rw [get_sequence_stats_def, if_pos hnil]
  · intro db sig hJ
    have hlen : (seqOutcomes db sig).length =
        (db.sequences.filter (fun s => decide (s.signature = some sig))).length :=
      seqOutcomes_length_aux db sig db.sequences hJ
    constructor
    · rw [get_sequence_stats_def]
      by_cases hnil : seqOutcomes db sig = []
      · rw [if_pos hnil]
        constructor
        · intro _
          have h0 : (db.sequences.filter (fun s => decide (s.signature = some sig))).length = 0 := by
            rw [← hlen, hnil]
            rfl
          exact List.length_eq_zero.mp h0
        · intro _
          rfl
      · rw [if_neg hnil]
        constructor
        · intro habs
          cases habs
        · intro hfil
          exact absurd (List.length_eq_zero.mp (by rw [hlen, hfil]; rfl)) hnil
    · intro st hst
      rw [get_sequence_stats_def] at hst
      by_cases hnil : seqOutcomes db sig = []
      · rw [if_pos hnil] at hst
        cases hst
      · rw [if_neg hnil] at hst
        have hst2 := (Option.some.injEq _ _).mp hst
        rw [← hst2]
        dsimp only
        refine ⟨hlen, ?_, ?_, ?_, rfl⟩
        · exact (List.countP_eq_length_filter _ _).symm
        · exact (List.countP_eq_length_filter _ _).symm
        · show (List.filter (fun o => decide (0 < o)) (seqOutcomes db sig)).length +
              (List.filter (fun o => decide (o < 0)) (seqOutcomes db sig)).length +
              (seqOutcomes db sig).countP (fun o => decide (o = 0)) =
              (seqOutcomes db sig).length
          rw [← List.countP_eq_length_filter, ← List.countP_eq_length_filter]
          exact rat_sign_partition _

/-- C3 witness: the absence clause applied to the example store and an
unknown signature. -/
theorem get_sequence_stats_spec_witness :
    get_sequence_stats statsExampleDB "zz" = none :=
  get_sequence_stats_spec.1 statsExampleDB "zz" (by decide)

/-! ## Claim C7: get_unique_sequences (modelled from the spec) -/

theorem mem_dedupFirstAux (a : String) :
    ∀ (l seen : List String), a ∈ dedupFirstAux seen l ↔ a ∈ l ∧ a ∉ seen := by
  intro l
  induction l with
  | nil => intro seen; simp [dedupFirstAux]
  | cons x xs ih =>
    intro seen
    by_cases hx : x ∈ seen
    · rw [show dedupFirstAux seen (x :: xs) = dedupFirstAux seen xs from by
        simp [dedupFirstAux, hx]]
      rw [ih seen]
      constructor
      · rintro ⟨h1, h2⟩
        exact ⟨List.mem_cons_of_mem _ h1, h2⟩
      · rintro ⟨h1, h2⟩
        rcases List.mem_cons.mp h1 with rfl | h1
        · exact absurd hx h2
        · exact ⟨h1, h2⟩
    · rw [show dedupFirstAux seen (x :: xs) = x :: dedupFirstAux (x :: seen) xs from by
        simp [dedupFirstAux, hx]]
      constructor
      · intro hmem
        rcases List.mem_cons.mp hmem with rfl | hmem
        · exact ⟨List.mem_cons_self _ _, hx⟩
        · obtain ⟨h1, h2⟩ := (ih (x :: seen)).mp hmem
          exact ⟨List.mem_cons_of_mem _ h1, fun hs => h2 (List.mem_cons_of_mem _ hs)⟩
      · rintro ⟨h1, h2⟩
        rcases List.mem_cons.mp h1 with rfl | h1
        · exact List.mem_cons_self _ _
        · by_cases hax : a = x
          · subst hax
            exact List.mem_cons_self _ _
          · apply List.mem_cons_of_mem
            apply (ih (x :: seen)).mpr
            refine ⟨h1, fun hm => ?_⟩
            rcases List.mem_cons.mp hm with h | h
            · exact hax h
            · exact h2 h

theorem nodup_dedupFirstAux : ∀ (l seen : List String), (dedupFirstAux seen l).Nodup := by
  intro l
  induction l with
  | nil => intro seen; simp [dedupFirstAux]
  | cons x xs ih =>
    intro seen
    by_cases hx : x ∈ seen
    · rw [show dedupFirstAux seen (x :: xs) = dedupFirstAux seen xs from by
        simp [dedupFirstAux, hx]]
      exact ih seen
    · rw [show dedupFirstAux seen (x :: xs) = x :: dedupFirstAux (x :: seen) xs from by
        simp [dedupFirstAux, hx]]
      refine List.nodup_cons.mpr ⟨fun hmem => ?_, ih (x :: seen)⟩
      exact ((mem_dedupFirstAux x xs (x :: seen)).mp hmem).2 (List.mem_cons_self _ _)

/-- C7 (spec-modelled): the store operation get_unique_sequences, modelled
from the spec because only its call site is in the sources, returns
exactly one entry per distinct non-null signature ever stored, and each
entry carries a representative closed sequence together with that
sequence's full ordered step list: sorted by step_num and a permutation of
exactly the step rows of that sequence (text fields included, as the rows
carry them). -/
theorem get_unique_sequences_spec (db : GraphDB) :
    ((get_unique_sequences db).map Prod.fst).Nodup ∧
    (∀ sg : String,
      (∃ s ∈ db.sequences, s.signature = some sg) ↔
        sg ∈ (get_unique_sequences db).map Prod.fst) ∧
    (∀ p ∈ get_unique_sequences db,
      ∃ s ∈ db.sequences, s.signature = some p.1 ∧
        p.2 = sortSteps (db.steps.filter
          (fun st => sqlEqOpt st.sequence_id (some s.sequence_id))) ∧
        p.2.Sorted stepNumLE ∧
        p.2.Perm (db.steps.filter
          (fun st => sqlEqOpt st.sequence_id (some s.sequence_id)))) := by
  have hfst : (get_unique_sequences db).map Prod.fst =
      dedupFirst (db.sequences.filterMap (fun s => s.signature)) := by
    unfold get_unique_sequences
    rw [List.map_map]
    exact List.map_id _
  refine ⟨?_, ?_, ?_⟩
  · rw [hfst]
    exact nodup_dedupFirstAux _ []
  · intro sg
    rw [hfst]
    unfold dedupFirst
    rw [mem_dedupFirstAux]
    simp [List.mem_filterMap]
  · intro p hp
    obtain ⟨sg, hsg, hpair⟩ := List.mem_map.mp hp
    have hsg2 : sg ∈ db.sequences.filterMap (fun s => s.signature) :=
      ((mem_dedupFirstAux sg _ []).mp hsg).1
    obtain ⟨s0, hs0, hs0sig⟩ := List.mem_filterMap.mp hsg2
    cases hfind : db.sequences.find? (fun s => decide (s.signature = some sg)) with
    | none =>
      exfalso
      have := List.find?_eq_none.mp hfind s0 hs0
      simp [hs0sig] at this
    | some srep =>
      have hmem := List.mem_of_find?_eq_some hfind
      have hsig : srep.signature = some sg := by
        have hp2 := List.find?_some hfind
        simpa using hp2
      refine ⟨srep, hmem, ?_, ?_, ?_, ?_⟩
      · rw [← hpair]
        exact hsig
      · rw [← hpair]
        show (match db.sequences.find? (fun s => decide (s.signature = some sg)) with
          | some s => sortSteps (db.steps.filter
              (fun st => sqlEqOpt st.sequence_id (some s.sequence_id)))
          | none => []) = _
        rw [hfind]
      · rw [← hpair]
        show List.Sorted stepNumLE (match db.sequences.find?
            (fun s => decide (s.signature = some sg)) with
          | some s => sortSteps (db.steps.filter
              (fun st => sqlEqOpt st.sequence_id (some s.sequence_id)))
          | none => [])
        rw [hfind]
        exact List.sorted_insertionSort _ _
      · rw [← hpair]
        show List.Perm (match db.sequences.find? (fun s => decide (s.signature = some sg)) with
          | some s => sortSteps (db.steps.filter
              (fun st => sqlEqOpt st.sequence_id (some s.sequence_id)))
          | none => []) _
        rw [hfind]
        exact List.perm_insertionSort _ _

/-- C7 witness: the representative clause applied to the first signature of
the segmenter example run. -/
theorem get_unique_sequences_spec_witness :
    ∃ s ∈ segExampleRun.db.sequences, s.signature = some uniqWitnessPair.1 ∧
      uniqWitnessPair.2 = sortSteps (segExampleRun.db.steps.filter
        (fun st => sqlEqOpt st.sequence_id (some s.sequence_id))) ∧
      uniqWitnessPair.2.Sorted stepNumLE ∧
      uniqWitnessPair.2.Perm (segExampleRun.db.steps.filter
        (fun st => sqlEqOpt st.sequence_id (some s.sequence_id))) :=
  (get_unique_sequences_spec segExampleRun.db).2.2 uniqWitnessPair (by decide)

/-! ## Claims C4, C5, C10: the selector -/

theorem parse_fallback_def (s : String) (n : Nat) :
    parse_fallback s n =
      (((scanInts s.data).reverse.find? (fun u => decide (u < n))).getD 0,
       String.mk (stripChars s.data)) := by
  unfold parse_fallback
  cases hf : (scanInts s.data).reverse.find? (fun u => decide (u < n)) <;> simp [hf]

theorem parse_fallback_lt (s : String) (n : Nat) (hn : 0 < n) : (parse_fallback s n).1 < n := by
  rw [parse_fallback_def]
  cases hf : (scanInts s.data).reverse.find? (fun u => decide (u < n)) with
  | none => exact hn
  | some v =>
    have hv := List.find?_some hf
    simpa using hv

theorem parse_choice_lt (s : String) (n : Nat) (hn : 0 < n) : (parse_choice s n).1 < n := by
  unfold parse_choice
  by_cases hs : s = ""
  · rw [if_pos hs]
    exact hn
  · rw [if_neg hs]
    cases hf : findChoice s.data with
    | none => exact parse_fallback_lt s n hn
    | some p =>
      obtain ⟨pre, v⟩ := p
      show (if v < n then (v, String.mk (stripChars pre)) else parse_fallback s n).1 < n
      by_cases hv : v < n
      · rw [if_pos hv]
        exact hv
      · rw [if_neg hv]
        exact parse_fallback_lt s n hn

/-- C4: for every non-empty candidate list, choose_sequence neither raises
nor returns a null result: whether the text-generation call raised (with
any fallback randomness) or returned any response text, it returns some
candidate of the supplied list. -/
theorem choose_sequence_total (legal_sequences : List Candidate)
    (response : Except Unit String) (rand : Nat) (h : legal_sequences ≠ []) :
    ∃ c, choose_sequence legal_sequences response rand = some c ∧ c ∈ legal_sequences := by
  have hlen : 0 < legal_sequences.length := List.length_pos.mpr h
  cases response with
  | error e =>
    refine ⟨legal_sequences.get ⟨rand % legal_sequences.length, Nat.mod_lt _ hlen⟩, ?_,
      List.get_mem _ _ _⟩
    show random_choice legal_sequences rand = _
    unfold random_choice
    exact List.get?_eq_get _
  | ok r =>
    have hc : (parse_choice r legal_sequences.length).1 < legal_sequences.length :=
      parse_choice_lt r _ hlen
    refine ⟨legal_sequences.get ⟨(parse_choice r legal_sequences.length).1, hc⟩, ?_,
      List.get_mem _ _ _⟩
    show (match legal_sequences.get? (parse_choice r legal_sequences.length).1 with
      | some c => some c
      | none => random_choice legal_sequences rand) = _
    rw [List.get?_eq_get hc]

/-- C4 witness: a one-candidate list with a raising text-generation call
still returns a member. -/
theorem choose_sequence_total_witness :
    ∃ c, choose_sequence [{ steps := [] }] (Except.error ()) 7 = some c ∧
      c ∈ ([{ steps := [] }] : List Candidate) :=
  choose_sequence_total [{ steps := [] }] (Except.error ()) 7 (by decide)

/-- C5: response parsing resolves the index as the source does: an empty
response gives index zero; a leftmost case-insensitive CHOICE match whose
digits are in range gives that value with the text before the match as
reasoning; a match out of range, or no match, falls back to the last
in-range bare integer of the whole response, and to zero when there is
none, with the stripped response as reasoning; in particular a response
ending in CHOICE: 2 with five candidates yields index 2, and a response
offering only the out-of-range bare integer 7 with five candidates yields
index 0. -/
theorem parse_choice_spec :
    (∀ (s : String) (n : Nat) (pre : List Char) (v : Nat),
      s ≠ "" → findChoice s.data = some (pre, v) → v < n →
      parse_choice s n = (v, String.mk (stripChars pre))) ∧
    (∀ (s : String) (n : Nat) (pre : List Char) (v : Nat),
      s ≠ "" → findChoice s.data = some (pre, v) → ¬ v < n →
      parse_choice s n =
        (((scanInts s.data).reverse.find? (fun u => decide (u < n))).getD 0,
         String.mk (stripChars s.data))) ∧
    (∀ (s : String) (n : Nat),
      s ≠ "" → findChoice s.data = none →
      parse_choice s n =
        (((scanInts s.data).reverse.find? (fun u => decide (u < n))).getD 0,
         String.mk (stripChars s.data))) ∧
    parse_choice "I think option 1 is bad.\nCHOICE: 2" 5 = (2, "I think option 1 is bad.") ∧
    parse_choice "I\x27d pick option 7" 5 = (0, "I\x27d pick option 7") := by
  refine ⟨?_, ?_, ?_, by decide, by decide⟩
  · intro s n pre v hs hf hv
    unfold parse_choice
    rw [if_neg hs, hf]
    show (if v < n then ((v, String.mk (stripChars pre)) : Nat × String)
      else parse_fallback s n) = _
    rw [if_pos hv]
  · intro s n pre v hs hf hv
    unfold parse_choice
    rw [if_neg hs, hf]
    show (if v < n then ((v, String.mk (stripChars pre)) : Nat × String)
      else parse_fallback s n) = _
    rw [if_neg hv]
    exact parse_fallback_def s n
  · intro s n hs hf
    unfold parse_choice
    rw [if_neg hs, hf]
    exact parse_fallback_def s n

/-- C5 witness: the in-range CHOICE clause applied to a concrete
response. -/
theorem parse_choice_spec_witness :
    parse_choice "xy CHOICE: 3" 7 = (3, String.mk (stripChars ['x', 'y', ' '])) :=
  parse_choice_spec.1 "xy CHOICE: 3" 7 ['x', 'y', ' '] 3 (by decide) (by decide) (by decide)

/-- C10: only the first forty candidates are rendered into the prompt, yet
the parsed index is validated against the full candidate list length and
the return indexes the full list, so for an index of at least forty that
is still in range, choose_sequence returns a candidate that was never
rendered. -/
theorem choose_sequence_full_range (legal_sequences : List Candidate) (r : String)
    (rand k : Nat) (h40 : 40 ≤ k) (hk : k < legal_sequences.length)
    (hp : (parse_choice r legal_sequences.length).1 = k) :
    choose_sequence legal_sequences (Except.ok r) rand =
      some (legal_sequences.get ⟨k, hk⟩) ∧
    (choice_lines legal_sequences).length = 40 ∧
    (choice_lines legal_sequences).length ≤ k := by
  have hlines : (choice_lines legal_sequences).length = 40 := by
    unfold choice_lines
    rw [List.length_map, List.enum_length, List.length_take]
    omega
  refine ⟨?_, hlines, by omega⟩
  show (match legal_sequences.get? (parse_choice r legal_sequences.length).1 with
    | some c => some c
    | none => random_choice legal_sequences rand) = _
  rw [hp, List.get?_eq_get hk]

/-- C10 witness: with forty-one candidates and the response CHOICE: 40,
the candidate at index forty is returned although only indexes zero to
thirty-nine were rendered. -/
theorem choose_sequence_full_range_witness :
    choose_sequence (List.replicate 41 ({ steps := [] } : Candidate)) (Except.ok "CHOICE: 40") 0 =
      some ((List.replicate 41 ({ steps := [] } : Candidate)).get ⟨40, by decide⟩) ∧
    (choice_lines (List.replicate 41 ({ steps := [] } : Candidate))).length = 40 ∧
    (choice_lines (List.replicate 41 ({ steps := [] } : Candidate))).length ≤ 40 :=
  choose_sequence_full_range (List.replicate 41 { steps := [] }) "CHOICE: 40" 0 40
    (by decide) (by decide) (by decide)

/-- C6 witness: with a sequence already active, one record_step call is a
single committed batch. -/
theorem record_step_atomicity_witness :
    atomicOps (record_step_events (start_new_sequence (start_new_episode {}) "P1")
      { src_id := "P1", action_id := "a1", dst_id := "P3" } exBoundaries "P2") = true :=
  (record_step_atomicity (start_new_sequence (start_new_episode {}) "P1")
    { src_id := "P1", action_id := "a1", dst_id := "P3" } exBoundaries "P2").1 (by decide)

/-- Cross-validation of the SHA-256 embedding against the FIPS 180-4 test
vector for the string abc. -/
theorem sha256_abc_check :
    String.mk (sha256hexChars (strBytes "abc")) =
      "ba7816bf8f01cfea414140de5dae2223b00361a396177a9cb410ff61f20015ad" := by decide
